import Mathlib

/-!
Verification development for the team-collaboration backend (Express +
Prisma + Socket.IO). The relational rows and the request handlers that the
claims concern are translated into executable Lean definitions:

* rows of the MySQL tables (prisma migrations, `database-schema.sql`) become
  structures over `Nat`/`String`, timestamps are `Nat` milliseconds;
* each handler becomes a pure function from a database snapshot and the
  request parameters to a result (HTTP status, new snapshot, the unread
  counter writes it issued, the socket broadcasts it issued);
* the socket event handlers (`src/socket.js`) become functions from a
  snapshot and the event payload to the emitted outcome.
-/

namespace TeamCollab

/-- Row of `users` (migration 20250818082259_init; auth-relevant columns). -/
structure User where
  id : Nat
  email : String
  password : String
  nickname : String
  isActive : Bool
  lastLogin : Option Nat
  deriving Repr, DecidableEq

/-- Row of `friends` (migration 20250819135452). -/
structure Friend where
  id : Nat
  userId : Nat
  friendId : Nat
  status : String
  deriving Repr, DecidableEq

/-- Row of `personal_todos` (migration 20250819135452; claim-relevant columns). -/
structure PersonalTodo where
  id : Nat
  userId : Nat
  title : String
  deriving Repr, DecidableEq

/-- Row of `workspaces` (migration 20250819135452). -/
structure Workspace where
  id : Nat
  name : String
  ownerId : Nat
  deriving Repr, DecidableEq

/-- Row of `workspace_members` (migration 20250819135452). -/
structure WorkspaceMember where
  id : Nat
  workspaceId : Nat
  userId : Nat
  accepted : Bool
  deriving Repr, DecidableEq

/-- Row of `group_tasks` (migration 20250819135452). -/
structure GroupTask where
  id : Nat
  workspaceId : Nat
  title : String
  description : String
  department : String
  status : String
  startDate : Nat
  dueDate : Nat
  deriving Repr, DecidableEq

/-- Row of `chat_messages` (migration 20250120000000_add_chat_messages). -/
structure ChatMessage where
  id : Nat
  workspaceId : Nat
  userId : Nat
  content : String
  createdAt : Nat
  deriving Repr, DecidableEq

/-- Row of the per-user-per-workspace unread-counter table used by
`routes/chat.js` as `prisma.chatNotification` with composite unique key
`userId_workspaceId` (unread counter plus last-read timestamp). -/
structure ChatNotification where
  userId : Nat
  workspaceId : Nat
  unreadCount : Nat
  lastReadAt : Nat
  deriving Repr, DecidableEq

/-- Row of `refresh_tokens` (migration 20250819135452). -/
structure RefreshToken where
  token : String
  userId : Nat
  expiresAt : Nat
  deriving Repr, DecidableEq

/-- A snapshot of the relational store. -/
structure DB where
  users : List User
  friends : List Friend
  personalTodos : List PersonalTodo
  workspaces : List Workspace
  workspaceMembers : List WorkspaceMember
  groupTasks : List GroupTask
  chatMessages : List ChatMessage
  chatNotifications : List ChatNotification
  refreshTokens : List RefreshToken
  deriving Repr, DecidableEq

/-- `prisma.workspaceMember.findFirst({where: {workspaceId, userId, accepted: true}})`. -/
def findMember (db : DB) (wsId userId : Nat) : Option WorkspaceMember :=
  db.workspaceMembers.find? fun m => m.workspaceId == wsId && m.userId == userId && m.accepted

/-- `prisma.workspace.findUnique({where: {id: wsId}})`. -/
def findWorkspace (db : DB) (wsId : Nat) : Option Workspace :=
  db.workspaces.find? fun w => w.id == wsId

/-- `prisma.workspace.findFirst({where: {id: wsId, ownerId: userId}})` as a Bool. -/
def isWorkspaceOwner (db : DB) (wsId userId : Nat) : Bool :=
  db.workspaces.any fun w => w.id == wsId && w.ownerId == userId

/-- The composite unique key `userId_workspaceId` of the unread-counter table. -/
def notifKey (userId wsId : Nat) (n : ChatNotification) : Bool :=
  n.userId == userId && n.workspaceId == wsId

/-- `prisma.chatNotification.findUnique({where: {userId_workspaceId}})`. -/
def findNotif (db : DB) (userId wsId : Nat) : Option ChatNotification :=
  db.chatNotifications.find? (notifKey userId wsId)

/-- `prisma.chatMessage.count({where: {workspaceId, createdAt: {gt: t}}})`. -/
def countMessagesAfter (msgs : List ChatMessage) (wsId t : Nat) : Nat :=
  (msgs.filter fun m => m.workspaceId == wsId && decide (t < m.createdAt)).length

/-- JavaScript `s.trim()`: strip leading and trailing whitespace. -/
def trimString (s : String) : String :=
  ⟨((s.data.dropWhile Char.isWhitespace).reverse.dropWhile Char.isWhitespace).reverse⟩

/-- JavaScript truthiness of a string option: `undefined`, `null` and `""` are falsy. -/
def strTruthy : Option String → Bool
  | some s => !s.data.isEmpty
  | none => false

/-- JavaScript `s || d` for a possibly-absent string `s`. -/
def strOrDefault (s : Option String) (d : String) : String :=
  match s with
  | some v => if v.data.isEmpty then d else v
  | none => d

/-- The form of a database write issued against the `unreadCount` column.
`atomicIncrement` is Prisma `update: {unreadCount: {increment: d}}` (the new
value is computed from the stored one inside the single write statement);
`insertValue`/`setLiteral` store a literal supplied by the application;
`storeComputed` stores a value the application computed after reading back
from the store (a look-up-then-write). -/
inductive CounterWrite where
  | atomicIncrement (delta : Nat)
  | insertValue (v : Nat)
  | setLiteral (v : Nat)
  | storeComputed (v : Nat)
  deriving Repr, DecidableEq

/-- A counter write is of the look-up-then-write form exactly when the stored
value was computed by the application from data it read back first. -/
def CounterWrite.isLookupThenWrite : CounterWrite → Bool
  | .storeComputed _ => true
  | _ => false

/-- A room-scoped socket broadcast (none is ever issued by a REST handler). -/
structure Broadcast where
  room : String
  event : String
  deriving Repr, DecidableEq

/-- Result of a chat REST handler: HTTP status, the store afterwards, the
unread-counter writes it issued, and the socket broadcasts it issued. -/
structure ChatResult where
  status : Nat
  db : DB
  writes : List CounterWrite
  broadcasts : List Broadcast
  deriving Repr, DecidableEq

/-- The update half of the send-path `prisma.chatNotification.upsert` on key
`(userId, wsId)`: increment the row's `unreadCount` when the row exists,
otherwise insert a row with `unreadCount: 1`. The inserted row's `lastReadAt`
is the column default. Modelled from the spec: `prisma/schema.prisma` is not in
the sources, so the default last-read timestamp of a freshly inserted
counter row is taken to be the current time. -/
def upsertIncNotifs (notifs : List ChatNotification) (userId wsId now : Nat) :
    List ChatNotification :=
  match notifs with
  | [] => [⟨userId, wsId, 1, now⟩]
  | n :: rest =>
    if notifKey userId wsId n then { n with unreadCount := n.unreadCount + 1 } :: rest
    else n :: upsertIncNotifs rest userId wsId now

/-- The write statement the send-path upsert issues for one member: an atomic
increment when the row exists, an insert of the literal 1 otherwise. -/
def upsertIncWrite (notifs : List ChatNotification) (userId wsId : Nat) : CounterWrite :=
  if notifs.any (notifKey userId wsId) then .atomicIncrement 1 else .insertValue 1

/-- The users whose counters the send handler touches: every accepted member
of the workspace other than the sender, plus the owner when the sender is not
the owner (`workspaceMembers` query plus the `allMembers.push` of the owner). -/
def sendRecipients (db : DB) (wsId senderId : Nat) : List Nat :=
  ((db.workspaceMembers.filter fun m =>
      m.workspaceId == wsId && m.accepted && m.userId != senderId).map (·.userId))
    ++ (match findWorkspace db wsId with
        | some w => if w.ownerId != senderId then [w.ownerId] else []
        | none => [])

/-- One iteration of the send handler's `for (const member of allMembers)` loop. -/
def sendStep (wsId now : Nat) (acc : List ChatNotification × List CounterWrite) (u : Nat) :
    List ChatNotification × List CounterWrite :=
  (upsertIncNotifs acc.1 u wsId now, acc.2 ++ [upsertIncWrite acc.1 u wsId])

/-- The success path of `POST /chat/workspace/:workspaceId` after the
validation and membership checks: create the message, then run the unread
upsert loop over the recipients. -/
def sendMessageOk (db : DB) (senderId wsId : Nat) (content : String) (msgId now : Nat) :
    ChatResult :=
  let msg : ChatMessage := ⟨msgId, wsId, senderId, trimString content, now⟩
  let db1 : DB := { db with chatMessages := db.chatMessages ++ [msg] }
  let folded := (sendRecipients db1 wsId senderId).foldl (sendStep wsId now)
    (db1.chatNotifications, [])
  ⟨201, { db1 with chatNotifications := folded.1 }, folded.2, []⟩

/-- `POST /chat/workspace/:workspaceId` (routes/chat.js): 400 on empty
content, 403 unless the sender is an accepted member, then create the message
and bump each recipient's unread counter. When the workspace row is missing
the handler crashes on `workspace.ownerId` after creating the message (500
from the catch block, message already persisted); the workspace lookup only
reads `workspaces`, which the message insert left unchanged. -/
def sendMessage (db : DB) (senderId wsId : Nat) (content : String) (msgId now : Nat) :
    ChatResult :=
  if (trimString content).data.isEmpty then ⟨400, db, [], []⟩
  else match findMember db wsId senderId with
    | none => ⟨403, db, [], []⟩
    | some _ =>
      match findWorkspace db wsId with
      | none =>
        ⟨500, { db with chatMessages :=
          db.chatMessages ++ [⟨msgId, wsId, senderId, trimString content, now⟩] }, [], []⟩
      | some _ => sendMessageOk db senderId wsId content msgId now

/-- The update half of the read-path upsert: reset `unreadCount` to 0 and
stamp `lastReadAt` with the current time (insert the same values when the row
is missing). -/
def upsertReadNotifs (notifs : List ChatNotification) (userId wsId now : Nat) :
    List ChatNotification :=
  match notifs with
  | [] => [⟨userId, wsId, 0, now⟩]
  | n :: rest =>
    if notifKey userId wsId n then { n with unreadCount := 0, lastReadAt := now } :: rest
    else n :: upsertReadNotifs rest userId wsId now

/-- `POST /chat/workspace/:workspaceId/read` (routes/chat.js): 403 unless the
requester is an accepted member or the owner, then upsert the counter row to
`unreadCount: 0, lastReadAt: new Date()`. -/
def markRead (db : DB) (userId wsId now : Nat) : ChatResult :=
  if (findMember db wsId userId).isNone && !isWorkspaceOwner db wsId userId then
    ⟨403, db, [], []⟩
  else
    ⟨200, { db with chatNotifications := upsertReadNotifs db.chatNotifications userId wsId now },
      [if db.chatNotifications.any (notifKey userId wsId) then .setLiteral 0 else .insertValue 0],
      []⟩

/-- The users the delete handler recalculates: every accepted member of the
workspace plus the owner. -/
def recalcRecipients (db : DB) (wsId ownerId : Nat) : List Nat :=
  ((db.workspaceMembers.filter fun m => m.workspaceId == wsId && m.accepted).map (·.userId))
    ++ [ownerId]

/-- Replace the `unreadCount` of the row with key `(userId, wsId)` by `c`. -/
def recalcUpdate (notifs : List ChatNotification) (userId wsId c : Nat) :
    List ChatNotification :=
  match notifs with
  | [] => []
  | n :: rest =>
    if notifKey userId wsId n then { n with unreadCount := c } :: rest
    else n :: recalcUpdate rest userId wsId c

/-- One iteration of the delete handler's recalculation loop: look the row up;
when present, count the remaining messages newer than its `lastReadAt` and
store that count. -/
def recalcStep (msgs : List ChatMessage) (wsId : Nat)
    (acc : List ChatNotification × List CounterWrite) (u : Nat) :
    List ChatNotification × List CounterWrite :=
  match acc.1.find? (notifKey u wsId) with
  | none => acc
  | some n =>
    let c := countMessagesAfter msgs wsId n.lastReadAt
    (recalcUpdate acc.1 u wsId c, acc.2 ++ [.storeComputed c])

/-- The success path of `DELETE /chat/message/:messageId` after the permission
check: delete the row, then recalculate every member's and the owner's counter
from the remaining messages. -/
def deleteMessageOk (db : DB) (msgId : Nat) (msg : ChatMessage) (w : Workspace) : ChatResult :=
  let remaining := db.chatMessages.filter fun m => m.id != msgId
  let db1 : DB := { db with chatMessages := remaining }
  let folded := (recalcRecipients db msg.workspaceId w.ownerId).foldl
    (recalcStep remaining msg.workspaceId) (db1.chatNotifications, [])
  ⟨200, { db1 with chatNotifications := folded.1 }, folded.2, []⟩

/-- `DELETE /chat/message/:messageId` (routes/chat.js): 404 when the message
is missing, 403 when the requester is neither the workspace owner, nor the
author, nor an accepted member, otherwise delete and recalculate. A missing
workspace row would crash the included-relation access (500, nothing done). -/
def deleteMessage (db : DB) (userId msgId : Nat) : ChatResult :=
  match db.chatMessages.find? (fun m => m.id == msgId) with
  | none => ⟨404, db, [], []⟩
  | some msg =>
    match findWorkspace db msg.workspaceId with
    | none => ⟨500, db, [], []⟩
    | some w =>
      if !(w.ownerId == userId) && !(msg.userId == userId) &&
          !(db.workspaceMembers.any fun m =>
            m.workspaceId == msg.workspaceId && m.userId == userId && m.accepted) then
        ⟨403, db, [], []⟩
      else deleteMessageOk db msgId msg w

/-- `GET /chat/workspace/:workspaceId` (routes/chat.js): 403 unless the
requester has an accepted member row — the owner check done by the read and
unread-count endpoints is absent here. The 200 body (pagination, ordering,
user include) is elided; the returned list is the workspace's messages. -/
def getChatMessages (db : DB) (userId wsId : Nat) : Nat × List ChatMessage :=
  match findMember db wsId userId with
  | none => (403, [])
  | some _ => (200, db.chatMessages.filter fun m => m.workspaceId == wsId)

/-- The decoded JWT payload stored on the socket (`socket.user`). -/
structure TokenPayload where
  userId : Nat
  email : String
  deriving Repr, DecidableEq

/-- The Socket.IO auth middleware (`io.use` in src/socket.js): reject when the
handshake carries no token (JS falsiness: absent or empty string), reject when
`jwt.verify` fails, otherwise store the decoded payload on the socket.
`jwt.verify` is modelled by the `verify` parameter. -/
def socketAuth (verify : String → Option TokenPayload) (token : Option String) :
    Except String TokenPayload :=
  match token with
  | none => .error "auth error: no token provided"
  | some t =>
    if t.data.isEmpty then .error "auth error: no token provided"
    else match verify t with
      | none => .error "auth error: invalid token"
      | some decoded => .ok decoded

/-- `checkWorkspaceMembership` (src/socket.js): the user owns the workspace or
has an accepted member row. -/
def checkWorkspaceMembership (db : DB) (userId wsId : Nat) : Bool :=
  (db.workspaces.any fun w => w.id == wsId && w.ownerId == userId) ||
    (db.workspaceMembers.any fun m => m.workspaceId == wsId && m.userId == userId && m.accepted)

/-- What a socket event handler emits. -/
inductive SocketOutcome where
  | errorToSender (message : String)
  | taskUpdated (wsId taskId userId : Nat)
  | friendRequestReceived (targetUserId fromUserId : Nat) (action : String)
  deriving Repr, DecidableEq

/-- Payload of the `task_update` socket event (`taskData` carries no
claim-relevant information and is elided). -/
structure TaskUpdateData where
  wsId : Option Nat
  taskId : Option Nat
  action : Option String
  deriving Repr, DecidableEq

/-- `prisma.groupTask.findFirst({where: {id: taskId, workspaceId: wsId}})`. -/
def findGroupTask (db : DB) (taskId wsId : Nat) : Option GroupTask :=
  db.groupTasks.find? fun t => t.id == taskId && t.workspaceId == wsId

/-- The `task_update` handler (src/socket.js): require both ids, re-validate
membership, look the task up by id and workspace, and only then broadcast
`task_updated` to the workspace room; every failure emits `error` to the
sender alone. -/
def taskUpdateHandler (db : DB) (senderId : Nat) (data : TaskUpdateData) : SocketOutcome :=
  match data.wsId, data.taskId with
  | some wsId, some taskId =>
    if checkWorkspaceMembership db senderId wsId then
      match findGroupTask db taskId wsId with
      | none => .errorToSender "task not found"
      | some _ => .taskUpdated wsId taskId senderId
    else .errorToSender "no workspace access"
  | _, _ => .errorToSender "wsId and taskId are required"

/-- Payload of the `friend_request` socket event. -/
structure FriendRequestData where
  targetUserId : Option Nat
  action : Option String
  deriving Repr, DecidableEq

/-- The `friend_request` handler (src/socket.js): require a target user id,
then emit `friend_request_received` to the target's personal room; the store
is never consulted. -/
def friendRequestHandler (db : DB) (sender : TokenPayload) (data : FriendRequestData) :
    SocketOutcome :=
  match data.targetUserId with
  | none => .errorToSender "target user id is required"
  | some target =>
    .friendRequestReceived target sender.userId (strOrDefault data.action "sent")

/-- Outcome of the `join_workspace` handler. -/
inductive JoinOutcome where
  | denied (message : String)
  | joined (wsId : Nat)
  deriving Repr, DecidableEq

/-- The `join_workspace` handler (src/socket.js): silently ignore a falsy id,
deny unless `checkWorkspaceMembership` grants, otherwise join the room. -/
def joinWorkspaceHandler (db : DB) (senderId : Nat) (wsId : Option Nat) : Option JoinOutcome :=
  match wsId with
  | none => none
  | some w =>
    if checkWorkspaceMembership db senderId w then some (.joined w)
    else some (.denied "no workspace access")

/-- Result of a task REST handler. -/
structure TaskResult where
  status : Nat
  db : DB
  broadcasts : List Broadcast
  deriving Repr, DecidableEq

/-- Departments accepted by routes/tasks.js. -/
def validDepartment (d : String) : Bool :=
  d == "FE" || d == "BE" || d == "QA"

/-- Statuses accepted by routes/tasks.js. -/
def validTaskStatus (s : String) : Bool :=
  s == "pending" || s == "in_progress" || s == "completed"

/-- `POST /workspaces/:wsId/tasks` (routes/tasks.js): 400 when a required
field is missing (JS falsiness), the department is not FE/BE/QA, a provided
status is invalid, or the due date is not after the start date; otherwise
create the task. Membership enforcement lives in the `checkWorkspaceMember`
middleware, which is not part of this handler's body. -/
def createGroupTask (db : DB) (wsId : Nat) (title description department : String)
    (status : Option String) (startDate dueDate : Option Nat) (taskId : Nat) : TaskResult :=
  match startDate, dueDate with
  | some start, some due =>
    if title.data.isEmpty || department.data.isEmpty then ⟨400, db, []⟩
    else if !validDepartment department then ⟨400, db, []⟩
    else if strTruthy status && !validTaskStatus (strOrDefault status "pending") then
      ⟨400, db, []⟩
    else if due ≤ start then ⟨400, db, []⟩
    else
      let task : GroupTask :=
        ⟨taskId, wsId, title, description, department, strOrDefault status "pending", start, due⟩
      ⟨201, { db with groupTasks := db.groupTasks ++ [task] }, []⟩
  | _, _ => ⟨400, db, []⟩

/-- Result of the login handler. -/
structure LoginResult where
  status : Nat
  db : DB
  deriving Repr, DecidableEq

/-- `prisma.user.findUnique({where: {email}})`. -/
def findUserByEmail (db : DB) (email : String) : Option User :=
  db.users.find? fun u => u.email == email

/-- `POST /auth/login` (routes/auth.js): 400 on missing credentials, 401 when
the user is missing, inactive, or the password does not match, otherwise stamp
`lastLogin`, delete every stored refresh token of the user and store one fresh
token expiring 7 days from now. `bcrypt.compare` is modelled by the
`hashCheck` parameter and the freshly signed JWT string by `newRefreshToken`;
the delete/create pair sits in a try/catch in the source and is modelled in
its failure-free execution. -/
def login (db : DB) (email password : String) (hashCheck : String → String → Bool)
    (newRefreshToken : String) (now : Nat) : LoginResult :=
  if email.data.isEmpty || password.data.isEmpty then ⟨400, db⟩
  else match findUserByEmail db email with
    | none => ⟨401, db⟩
    | some user =>
      if !user.isActive then ⟨401, db⟩
      else if !hashCheck password user.password then ⟨401, db⟩
      else
        let db1 : DB := { db with users := db.users.map fun u =>
          if u.id == user.id then { u with lastLogin := some now } else u }
        let db2 : DB := { db1 with refreshTokens :=
          (db1.refreshTokens.filter fun t => t.userId != user.id)
            ++ [⟨newRefreshToken, user.id, now + 7 * 24 * 60 * 60 * 1000⟩] }
        ⟨200, db2⟩

/-- `DELETE FROM workspaces WHERE id = wsId` under the `ON DELETE CASCADE`
foreign keys of the migrations: rows of `workspace_members`, `group_tasks`
and `chat_messages` referencing the workspace go with it. (The unread-counter
table has no DDL among the sources and is not part of claim C7; its rows are
left untouched here.) -/
def deleteWorkspaceCascade (db : DB) (wsId : Nat) : DB :=
  { db with
    workspaces := db.workspaces.filter fun w => w.id != wsId
    workspaceMembers := db.workspaceMembers.filter fun m => m.workspaceId != wsId
    groupTasks := db.groupTasks.filter fun t => t.workspaceId != wsId
    chatMessages := db.chatMessages.filter fun m => m.workspaceId != wsId }

/-- `DELETE FROM users WHERE id = userId` under the `ON DELETE CASCADE`
foreign keys of the migrations: rows of `friends` (either endpoint),
`personal_todos`, `refresh_tokens` and `chat_messages` referencing the user go
with it, as do the user's owned workspaces and, transitively, the rows
referencing those workspaces. -/
def deleteUserCascade (db : DB) (userId : Nat) : DB :=
  let ownedWs := (db.workspaces.filter fun w => w.ownerId == userId).map (·.id)
  { db with
    users := db.users.filter fun u => u.id != userId
    friends := db.friends.filter fun f => !(f.userId == userId || f.friendId == userId)
    personalTodos := db.personalTodos.filter fun t => t.userId != userId
    refreshTokens := db.refreshTokens.filter fun t => t.userId != userId
    workspaces := db.workspaces.filter fun w => w.ownerId != userId
    workspaceMembers := db.workspaceMembers.filter fun m =>
      !(m.userId == userId || ownedWs.contains m.workspaceId)
    groupTasks := db.groupTasks.filter fun t => !(ownedWs.contains t.workspaceId)
    chatMessages := db.chatMessages.filter fun m =>
      !(m.userId == userId || ownedWs.contains m.workspaceId) }

/-- The effect of one delete-recalculation iteration on the counter table
alone (the first component of `recalcStep`): when the row with key
`(u, wsId)` exists, store the recount of the remaining messages newer than
its `lastReadAt`. -/
def recalcApply (msgs : List ChatMessage) (wsId : Nat) (ns : List ChatNotification) (u : Nat) :
    List ChatNotification :=
  match ns.find? (notifKey u wsId) with
  | none => ns
  | some n => recalcUpdate ns u wsId (countMessagesAfter msgs wsId n.lastReadAt)

/-- The unread-counter invariant of claim C1, as a decidable check over a
snapshot: every stored counter row equals the number of chat messages of its
workspace created after its `lastReadAt`. -/
def invariantHolds (db : DB) : Bool :=
  db.chatNotifications.all fun n =>
    n.unreadCount == countMessagesAfter db.chatMessages n.workspaceId n.lastReadAt

/-! ## Example stores used by concrete theorems -/

/-- Workspace 1 owned by user 1, accepted member 2, pending invitee 3, all
three holding counter rows read at time 10, no messages yet. -/
def exSend : DB :=
  ⟨[], [], [], [⟨1, "w", 1⟩], [⟨1, 1, 2, true⟩, ⟨2, 1, 3, false⟩], [], [],
    [⟨1, 1, 0, 10⟩, ⟨2, 1, 0, 10⟩, ⟨3, 1, 0, 10⟩], []⟩

/-- Workspace 1 owned by user 1 who has no member row. -/
def exOwnerOnly : DB := ⟨[], [], [], [⟨1, "w", 1⟩], [], [], [], [], []⟩

/-- A single registered user (for the login theorems). -/
def exLoginUser : User := ⟨1, "a@b.c", "hash", "nick", true, none⟩

/-- Store with one user and two stored refresh tokens, one of them stale. -/
def exLogin : DB :=
  ⟨[exLoginUser], [], [], [], [], [], [], [], [⟨"old", 1, 5⟩, ⟨"other", 2, 5⟩]⟩

/-- A membership/task layout for the socket-handler theorems. -/
def exSocket : DB :=
  ⟨[], [], [], [⟨1, "w", 1⟩], [⟨1, 1, 2, true⟩], [⟨7, 1, "t", "", "BE", "pending", 0, 1⟩],
    [], [], []⟩

/-- Workspace 1 owned by user 1 with accepted member 2, two messages, and
counter rows for both users (the delete/read witness store). -/
def exDel : DB :=
  ⟨[], [], [], [⟨1, "w", 1⟩], [⟨1, 1, 2, true⟩], [],
    [⟨100, 1, 2, "hi", 20⟩, ⟨101, 1, 1, "yo", 30⟩],
    [⟨1, 1, 1, 25⟩, ⟨2, 1, 5, 10⟩], []⟩

/-! ## Claim theorems -/

/-- Claim C4: every socket connection is authenticated before any handler
runs: a missing (or empty, JS-falsy) token and a token `jwt.verify` rejects
both produce an authentication error, and an accepted connection carries
exactly the decoded payload as `socket.user`. -/
theorem socket_auth_guards :
    ∀ verify : String → Option TokenPayload,
      (socketAuth verify none = .error "auth error: no token provided") ∧
      (∀ t : String, t.data.isEmpty = false → verify t = none →
        socketAuth verify (some t) = .error "auth error: invalid token") ∧
      (∀ (t : String) (d : TokenPayload), t.data.isEmpty = false → verify t = some d →
        socketAuth verify (some t) = .ok d) ∧
      (∀ (token : Option String) (d : TokenPayload), socketAuth verify token = .ok d →
        ∃ t, token = some t ∧ verify t = some d) := by
  intro verify
  refine ⟨rfl, ?_, ?_, ?_⟩
  · intro t ht hv
    simp [socketAuth, ht, hv]
  · intro t d ht hv
    simp [socketAuth, ht, hv]
  · intro token d h
    match token with
    | none => simp [socketAuth] at h
    | some t =>
      refine ⟨t, rfl, ?_⟩
      by_cases he : t.data.isEmpty
      · simp [socketAuth, he] at h
      · cases hv : verify t with
        | none => simp [socketAuth, he, hv] at h
        | some d' =>
          simp [socketAuth, he, hv] at h
          rw [h]

/-- Claim C8: for any authenticated sender and any present `targetUserId`, the
`friend_request` handler emits `friend_request_received` to the target's
personal room, and its outcome does not depend on the store at all (no
existence or relationship validation). -/
theorem friend_request_no_validation :
    (∀ (db : DB) (sender : TokenPayload) (target : Nat) (action : Option String),
      friendRequestHandler db sender ⟨some target, action⟩ =
        .friendRequestReceived target sender.userId (strOrDefault action "sent")) ∧
    (∀ (db db' : DB) (sender : TokenPayload) (data : FriendRequestData),
      friendRequestHandler db sender data = friendRequestHandler db' sender data) :=
  ⟨fun _ _ _ _ => rfl, fun _ _ _ _ => rfl⟩

/-- Claim C3: the `task_update` handler re-validates membership and looks the
task up by id and workspace before broadcasting; a non-member sender or a
missing task yields an error event to the sender and never a broadcast, and a
broadcast happens only when both checks pass. -/
theorem task_update_revalidation :
    ∀ (db : DB) (senderId wsId taskId : Nat) (action : Option String),
      (checkWorkspaceMembership db senderId wsId = false →
        taskUpdateHandler db senderId ⟨some wsId, some taskId, action⟩ =
          .errorToSender "no workspace access") ∧
      (checkWorkspaceMembership db senderId wsId = true →
        findGroupTask db taskId wsId = none →
        taskUpdateHandler db senderId ⟨some wsId, some taskId, action⟩ =
          .errorToSender "task not found") ∧
      (∀ t, checkWorkspaceMembership db senderId wsId = true →
        findGroupTask db taskId wsId = some t →
        taskUpdateHandler db senderId ⟨some wsId, some taskId, action⟩ =
          .taskUpdated wsId taskId senderId) ∧
      (∀ w tid uid,
        taskUpdateHandler db senderId ⟨some wsId, some taskId, action⟩ =
          .taskUpdated w tid uid →
        checkWorkspaceMembership db senderId wsId = true ∧
          (∃ t, findGroupTask db taskId wsId = some t) ∧
          w = wsId ∧ tid = taskId ∧ uid = senderId) := by
  intro db senderId wsId taskId action
  refine ⟨?_, ?_, ?_, ?_⟩
  · intro hm
    simp [taskUpdateHandler, hm]
  · intro hm ht
    simp [taskUpdateHandler, hm, ht]
  · intro t hm ht
    simp [taskUpdateHandler, hm, ht]
  · intro w tid uid h
    by_cases hm : checkWorkspaceMembership db senderId wsId
    · cases ht : findGroupTask db taskId wsId with
      | none => simp [taskUpdateHandler, hm, ht] at h
      | some t =>
        simp [taskUpdateHandler, hm, ht] at h
        obtain ⟨rfl, rfl, rfl⟩ := h
        exact ⟨hm, ⟨t, rfl⟩, rfl, rfl, rfl⟩
    · simp [taskUpdateHandler, hm] at h

/-- Claim C5: none of the modelled REST mutation handlers (chat send, chat
delete, chat mark-read, group-task create) issues any socket broadcast; their
effects are the returned store and the HTTP response. -/
theorem rest_mutations_no_broadcast :
    (∀ (db : DB) (senderId wsId : Nat) (content : String) (msgId now : Nat),
      (sendMessage db senderId wsId content msgId now).broadcasts = []) ∧
    (∀ (db : DB) (userId msgId : Nat),
      (deleteMessage db userId msgId).broadcasts = []) ∧
    (∀ (db : DB) (userId wsId now : Nat),
      (markRead db userId wsId now).broadcasts = []) ∧
    (∀ (db : DB) (wsId : Nat) (title description department : String)
        (status : Option String) (startDate dueDate : Option Nat) (taskId : Nat),
      (createGroupTask db wsId title description department status startDate dueDate
        taskId).broadcasts = []) := by
  refine ⟨?_, ?_, ?_, ?_⟩
  · intro db senderId wsId content msgId now
    unfold sendMessage
    repeat' split
    all_goals rfl
  · intro db userId msgId
    unfold deleteMessage
    repeat' split
    all_goals rfl
  · intro db userId wsId now
    unfold markRead
    repeat' split
    all_goals rfl
  · intro db wsId title description department status startDate dueDate taskId
    unfold createGroupTask
    repeat' split
    all_goals rfl

/-- Claim C7: the declared cascade foreign keys remove every referencing row:
deleting a workspace leaves no member, group-task or chat-message row
referencing it, and deleting a user leaves no friend edge, personal todo,
refresh token or chat message referencing the user. -/
theorem cascade_delete_removes_references :
    ∀ (db : DB) (wsId userId : Nat),
      (∀ m ∈ (deleteWorkspaceCascade db wsId).workspaceMembers, m.workspaceId ≠ wsId) ∧
      (∀ t ∈ (deleteWorkspaceCascade db wsId).groupTasks, t.workspaceId ≠ wsId) ∧
      (∀ m ∈ (deleteWorkspaceCascade db wsId).chatMessages, m.workspaceId ≠ wsId) ∧
      (∀ f ∈ (deleteUserCascade db userId).friends, f.userId ≠ userId ∧ f.friendId ≠ userId) ∧
      (∀ t ∈ (deleteUserCascade db userId).personalTodos, t.userId ≠ userId) ∧
      (∀ t ∈ (deleteUserCascade db userId).refreshTokens, t.userId ≠ userId) ∧
      (∀ m ∈ (deleteUserCascade db userId).chatMessages, m.userId ≠ userId) := by
  intro db wsId userId
  refine ⟨?_, ?_, ?_, ?_, ?_, ?_, ?_⟩ <;> intro x hx
  · simp [deleteWorkspaceCascade, List.mem_filter] at hx
    exact hx.2
  · simp [deleteWorkspaceCascade, List.mem_filter] at hx
    exact hx.2
  · simp [deleteWorkspaceCascade, List.mem_filter] at hx
    exact hx.2
  · simp [deleteUserCascade, List.mem_filter] at hx
    exact ⟨hx.2.1, hx.2.2⟩
  · simp [deleteUserCascade, List.mem_filter] at hx
    exact hx.2
  · simp [deleteUserCascade, List.mem_filter] at hx
    exact hx.2
  · simp [deleteUserCascade, List.mem_filter] at hx
    exact hx.2.1

/-- An accepted member row exists exactly when the `findFirst` query returns a
row. -/
theorem findMember_isSome_iff (db : DB) (wsId userId : Nat) :
    (findMember db wsId userId).isSome = true ↔
      ∃ m ∈ db.workspaceMembers,
        m.workspaceId = wsId ∧ m.userId = userId ∧ m.accepted = true := by
  rw [Option.isSome_iff_exists]
  constructor
  · rintro ⟨m, hm⟩
    have hmem := List.mem_of_find?_eq_some hm
    have hp := List.find?_some hm
    simp only [Bool.and_eq_true, beq_iff_eq] at hp
    exact ⟨m, hmem, hp.1.1, hp.1.2, hp.2⟩
  · rintro ⟨m, hmem, h1, h2, h3⟩
    cases hf : findMember db wsId userId with
    | some a => exact ⟨a, rfl⟩
    | none =>
      exact absurd (by simp [h1, h2, h3] : _ = true)
        (List.find?_eq_none.mp hf m hmem)

/-- Claim C6 counterexample: in a store where user 1 owns workspace 1 but has
no member row, the socket-side membership check grants access while the REST
chat-history read answers 403 — so access is not granted exactly to
owner-or-accepted-member across both operations. -/
theorem workspace_access_owner_counterexample :
    isWorkspaceOwner exOwnerOnly 1 1 = true ∧
      checkWorkspaceMembership exOwnerOnly 1 1 = true ∧
      joinWorkspaceHandler exOwnerOnly 1 (some 1) = some (.joined 1) ∧
      (getChatMessages exOwnerOnly 1 1).1 = 403 := by decide

/-- Claim C6 as amended: the socket-side check (`join_workspace`,
`checkWorkspaceMembership`) grants access exactly to the owner or an accepted
member, while the REST chat-history read grants access exactly to an accepted
member — the owner is refused there unless they also hold an accepted member
row. -/
theorem workspace_access_amended :
    ∀ (db : DB) (userId wsId : Nat),
      (checkWorkspaceMembership db userId wsId = true ↔
        (∃ w ∈ db.workspaces, w.id = wsId ∧ w.ownerId = userId) ∨
        (∃ m ∈ db.workspaceMembers,
          m.workspaceId = wsId ∧ m.userId = userId ∧ m.accepted = true)) ∧
      (joinWorkspaceHandler db userId (some wsId) = some (.joined wsId) ↔
        checkWorkspaceMembership db userId wsId = true) ∧
      ((getChatMessages db userId wsId).1 = 200 ↔
        ∃ m ∈ db.workspaceMembers,
          m.workspaceId = wsId ∧ m.userId = userId ∧ m.accepted = true) ∧
      ((getChatMessages db userId wsId).1 = 403 ↔
        ¬∃ m ∈ db.workspaceMembers,
          m.workspaceId = wsId ∧ m.userId = userId ∧ m.accepted = true) := by
  intro db userId wsId
  have hmem := findMember_isSome_iff db wsId userId
  refine ⟨?_, ?_, ?_, ?_⟩
  · simp [checkWorkspaceMembership, List.any_eq_true, and_assoc]
  · by_cases hm : checkWorkspaceMembership db userId wsId
    · simp [joinWorkspaceHandler, hm]
    · simp [joinWorkspaceHandler, hm]
  · cases hf : findMember db wsId userId with
    | none =>
      rw [hf] at hmem
      simp only [getChatMessages, hf]
      simp only [Option.isSome_none, Bool.false_eq_true, false_iff] at hmem
      simp [hmem]
    | some m =>
      rw [hf] at hmem
      simp only [getChatMessages, hf]
      simp only [Option.isSome_some, true_iff] at hmem
      simp [hmem]
  · cases hf : findMember db wsId userId with
    | none =>
      rw [hf] at hmem
      simp only [getChatMessages, hf]
      simp only [Option.isSome_none, Bool.false_eq_true, false_iff] at hmem
      simp [hmem]
    | some m =>
      rw [hf] at hmem
      simp only [getChatMessages, hf]
      simp only [Option.isSome_some, true_iff] at hmem
      simp [hmem]

/-- Every write the send-path loop appends is an upsert write: an atomic
increment of 1 or an insert of the literal 1. -/
theorem sendFold_writes_shape (wsId now : Nat) :
    ∀ (L : List Nat) (acc : List ChatNotification × List CounterWrite),
      (∀ w ∈ acc.2, w = CounterWrite.atomicIncrement 1 ∨ w = CounterWrite.insertValue 1) →
      ∀ w ∈ (L.foldl (sendStep wsId now) acc).2,
        w = CounterWrite.atomicIncrement 1 ∨ w = CounterWrite.insertValue 1 := by
  intro L
  induction L with
  | nil => intro acc h; exact h
  | cons u rest ih =>
    intro acc h
    rw [List.foldl_cons]
    refine ih _ ?_
    intro w hw
    rcases List.mem_append.mp hw with h1 | h2
    · exact h w h1
    · rw [List.mem_singleton] at h2
      subst h2
      unfold upsertIncWrite
      split
      · exact Or.inl rfl
      · exact Or.inr rfl

/-- Every write the delete-path recalculation loop appends stores a value the
handler computed after reading the store back. -/
theorem recalcFold_writes_shape (msgs : List ChatMessage) (wsId : Nat) :
    ∀ (L : List Nat) (acc : List ChatNotification × List CounterWrite),
      (∀ w ∈ acc.2, ∃ c, w = CounterWrite.storeComputed c) →
      ∀ w ∈ (L.foldl (recalcStep msgs wsId) acc).2, ∃ c, w = CounterWrite.storeComputed c := by
  intro L
  induction L with
  | nil => intro acc h; exact h
  | cons u rest ih =>
    intro acc h
    rw [List.foldl_cons]
    refine ih _ ?_
    intro w hw
    unfold recalcStep at hw
    cases hfind : acc.1.find? (notifKey u wsId) with
    | none =>
      rw [hfind] at hw
      exact h w hw
    | some n =>
      rw [hfind] at hw
      simp only at hw
      rcases List.mem_append.mp hw with h1 | h2
      · exact h w h1
      · rw [List.mem_singleton] at h2
        exact ⟨_, h2⟩

/-- Claim C2 counterexample: sending a message into a workspace whose
recipients already hold counter rows issues exactly one counter write, and it
is the single-statement atomic increment (`unreadCount: {increment: 1}`), not
a look-up-then-write. -/
theorem unread_increment_atomic_counterexample :
    (sendMessage exSend 2 1 "hi" 100 20).status = 201 ∧
      (sendMessage exSend 2 1 "hi" 100 20).writes = [CounterWrite.atomicIncrement 1] ∧
      (sendMessage exSend 2 1 "hi" 100 20).writes.all
        (fun w => ! w.isLookupThenWrite) = true := by
  decide

/-- Claim C2 as amended: the unread-count writes issued on the send path are
never of the look-up-then-write form — each is a single atomic increment
statement or an insert of the literal 1 — whereas every counter write on the
message-delete path is a look-up-then-write (count, then store the computed
value). -/
theorem unread_increment_write_forms :
    (∀ (db : DB) (senderId wsId : Nat) (content : String) (msgId now : Nat),
      ∀ w ∈ (sendMessage db senderId wsId content msgId now).writes,
        w.isLookupThenWrite = false ∧
          (w = CounterWrite.atomicIncrement 1 ∨ w = CounterWrite.insertValue 1)) ∧
    (∀ (db : DB) (userId msgId : Nat),
      ∀ w ∈ (deleteMessage db userId msgId).writes,
        w.isLookupThenWrite = true ∧ ∃ c, w = CounterWrite.storeComputed c) := by
  constructor
  · intro db senderId wsId content msgId now w hw
    have hshape : w = CounterWrite.atomicIncrement 1 ∨ w = CounterWrite.insertValue 1 := by
      unfold sendMessage at hw
      split at hw
      · simp at hw
      · split at hw
        · simp at hw
        · split at hw
          · simp at hw
          · unfold sendMessageOk at hw
            exact sendFold_writes_shape wsId now _ _ (by intro w' hw'; simp at hw') w hw
    refine ⟨?_, hshape⟩
    rcases hshape with rfl | rfl <;> rfl
  · intro db userId msgId w hw
    have hshape : ∃ c, w = CounterWrite.storeComputed c := by
      unfold deleteMessage at hw
      split at hw
      · simp at hw
      · split at hw
        · simp at hw
        · split at hw
          · simp at hw
          · unfold deleteMessageOk at hw
            exact recalcFold_writes_shape _ _ _ _ (by intro w' hw'; simp at hw') w hw
    obtain ⟨c, rfl⟩ := hshape
    exact ⟨rfl, c, rfl⟩

/-- Claim C9: the 403 branch of message deletion is reachable only for a
requester who is simultaneously not the author, not the workspace owner and
not an accepted member; in particular any accepted member of the message's
workspace can delete any message in it. -/
theorem delete_message_permission :
    ∀ (db : DB) (userId msgId : Nat),
      (∀ msg w, db.chatMessages.find? (fun m => m.id == msgId) = some msg →
        findWorkspace db msg.workspaceId = some w →
        (∃ m ∈ db.workspaceMembers,
          m.workspaceId = msg.workspaceId ∧ m.userId = userId ∧ m.accepted = true) →
        (deleteMessage db userId msgId).status = 200) ∧
      ((deleteMessage db userId msgId).status = 403 →
        ∃ msg, db.chatMessages.find? (fun m => m.id == msgId) = some msg ∧
          ∃ w, findWorkspace db msg.workspaceId = some w ∧
            w.ownerId ≠ userId ∧ msg.userId ≠ userId ∧
            ∀ m ∈ db.workspaceMembers,
              ¬(m.workspaceId = msg.workspaceId ∧ m.userId = userId ∧ m.accepted = true)) := by
  intro db userId msgId
  constructor
  · rintro msg w hmsg hw ⟨m, hmem, h1, h2, h3⟩
    have hany : (db.workspaceMembers.any fun m =>
        m.workspaceId == msg.workspaceId && m.userId == userId && m.accepted) = true :=
      List.any_eq_true.mpr ⟨m, hmem, by simp [h1, h2, h3]⟩
    unfold deleteMessage
    rw [hmsg]
    simp only [hw, hany, Bool.not_true, Bool.and_false, Bool.false_eq_true, if_false]
    rfl
  · intro h
    unfold deleteMessage at h
    cases hmsg : db.chatMessages.find? (fun m => m.id == msgId) with
    | none =>
      rw [hmsg] at h
      simp at h
    | some msg =>
      rw [hmsg] at h
      cases hw : findWorkspace db msg.workspaceId with
      | none =>
        simp only [hw] at h
        simp at h
      | some w =>
        simp only [hw] at h
        by_cases hguard : (!(w.ownerId == userId) && !(msg.userId == userId) &&
            !(db.workspaceMembers.any fun m =>
              m.workspaceId == msg.workspaceId && m.userId == userId && m.accepted)) = true
        · simp only [Bool.and_eq_true, Bool.not_eq_true'] at hguard
          obtain ⟨⟨howner, hauthor⟩, hany⟩ := hguard
          refine ⟨msg, rfl, w, hw, ne_of_beq_false howner, ne_of_beq_false hauthor, ?_⟩
          intro m hmem hm
          have := List.any_eq_false.mp hany m hmem
          simp [hm.1, hm.2.1, hm.2.2] at this
        · rw [if_neg hguard] at h
          rw [show (deleteMessageOk db msgId msg w).status = 200 from rfl] at h
          exact absurd h (by decide)

/-- A filter for a user's rows applied after filtering that user's rows away
yields nothing. -/
theorem filter_userId_eq_of_ne (uid : Nat) :
    ∀ l : List RefreshToken,
      (l.filter fun t => t.userId != uid).filter (fun t => t.userId == uid) = [] := by
  intro l
  induction l with
  | nil => rfl
  | cons x xs ih =>
    by_cases hx : (x.userId == uid) = true
    · simp [List.filter_cons, hx, bne, ih]
    · simp [List.filter_cons, hx, bne, ih]

/-- Claim C10: a successful login leaves the user with exactly one stored
refresh token — the fresh one, expiring 7 days (in milliseconds) after the
login time; every previously stored token of that user is gone. -/
theorem login_single_refresh_token :
    ∀ (db : DB) (email password : String) (hashCheck : String → String → Bool)
      (newRefreshToken : String) (now : Nat) (user : User),
      findUserByEmail db email = some user →
      (login db email password hashCheck newRefreshToken now).status = 200 →
      ((login db email password hashCheck newRefreshToken now).db.refreshTokens.filter
          fun t => t.userId == user.id) =
        [⟨newRefreshToken, user.id, now + 7 * 24 * 60 * 60 * 1000⟩] := by
  intro db email password hashCheck newRefreshToken now user hfind hstatus
  unfold login at hstatus ⊢
  by_cases h1 : (email.data.isEmpty || password.data.isEmpty) = true
  · rw [if_pos h1] at hstatus
    simp at hstatus
  · rw [if_neg h1] at hstatus ⊢
    rw [hfind] at hstatus ⊢
    by_cases h2 : (!user.isActive) = true
    · simp only [h2, if_true] at hstatus
      simp at hstatus
    · simp only [h2, Bool.false_eq_true, if_false] at hstatus ⊢
      by_cases h3 : (!hashCheck password user.password) = true
      · simp only [h3, if_true] at hstatus
        simp at hstatus
      · simp only [h3, Bool.false_eq_true, if_false]
        rw [List.filter_append, filter_userId_eq_of_ne]
        simp [List.filter_cons]

/-- Witness for the login theorem at a concrete store: user 1 logs in with the
right password and ends up holding exactly the fresh token. -/
theorem login_single_refresh_token_witness :
    ((login exLogin "a@b.c" "hash" (fun p h => p == h) "fresh" 1000).db.refreshTokens.filter
        fun t => t.userId == exLoginUser.id) =
      [⟨"fresh", exLoginUser.id, 1000 + 7 * 24 * 60 * 60 * 1000⟩] :=
  login_single_refresh_token exLogin "a@b.c" "hash" (fun p h => p == h) "fresh" 1000
    exLoginUser (by decide) (by decide)

/-! ## Unread-counter bookkeeping lemmas (claim C1) -/

/-- A row whose `userId` is `u` never matches the key of a different user `v`. -/
theorem notifKey_of_ne (u v ws : Nat) (n : ChatNotification) (hn : n.userId = u)
    (hvu : v ≠ u) : notifKey v ws n = false := by
  unfold notifKey
  rw [hn]
  simp [Ne.symm hvu]

/-- The send-path upsert for user `u` leaves every other user's row lookup
unchanged. -/
theorem find?_upsertInc_ne (ws now u v : Nat) (hvu : v ≠ u) :
    ∀ ns : List ChatNotification,
      (upsertIncNotifs ns u ws now).find? (notifKey v ws) = ns.find? (notifKey v ws) := by
  intro ns
  induction ns with
  | nil =>
    unfold upsertIncNotifs
    rw [List.find?_cons_of_neg _ (by simp [notifKey, Ne.symm hvu])]
  | cons x xs ih =>
    unfold upsertIncNotifs
    by_cases hx : notifKey u ws x = true
    · rw [if_pos hx]
      have hxu : x.userId = u := by
        have := hx
        unfold notifKey at this
        simp only [Bool.and_eq_true, beq_iff_eq] at this
        exact this.1
      rw [List.find?_cons_of_neg _ (by simp [notifKey, hxu, Ne.symm hvu]),
        List.find?_cons_of_neg _ (by simp [notifKey, hxu, Ne.symm hvu])]
    · rw [if_neg hx]
      by_cases hxv : notifKey v ws x = true
      · rw [List.find?_cons_of_pos _ hxv, List.find?_cons_of_pos _ hxv]
      · rw [List.find?_cons_of_neg _ hxv, List.find?_cons_of_neg _ hxv]
        exact ih

/-- The send-path upsert for user `u` turns an existing row for `u` into the
same row with its counter incremented. -/
theorem find?_upsertInc_self (ws now u : Nat) :
    ∀ (ns : List ChatNotification) (n : ChatNotification),
      ns.find? (notifKey u ws) = some n →
      (upsertIncNotifs ns u ws now).find? (notifKey u ws) =
        some { n with unreadCount := n.unreadCount + 1 } := by
  intro ns
  induction ns with
  | nil => intro n h; simp [List.find?] at h
  | cons x xs ih =>
    intro n h
    by_cases hx : notifKey u ws x = true
    · rw [List.find?_cons_of_pos _ hx] at h
      cases h
      unfold upsertIncNotifs
      rw [if_pos hx]
      exact List.find?_cons_of_pos _ hx
    · rw [List.find?_cons_of_neg _ hx] at h
      unfold upsertIncNotifs
      rw [if_neg hx, List.find?_cons_of_neg _ hx]
      exact ih n h

/-- The counter component of one send-loop iteration. -/
theorem sendStep_fst (ws now : Nat) (acc : List ChatNotification × List CounterWrite)
    (u : Nat) : (sendStep ws now acc u).1 = upsertIncNotifs acc.1 u ws now := rfl

/-- The counter table after the send loop is the fold of the plain upserts. -/
theorem sendFold_fst (ws now : Nat) :
    ∀ (L : List Nat) (acc : List ChatNotification × List CounterWrite),
      (L.foldl (sendStep ws now) acc).1 =
        L.foldl (fun a u => upsertIncNotifs a u ws now) acc.1 := by
  intro L
  induction L with
  | nil => intro acc; rfl
  | cons u rest ih =>
    intro acc
    rw [List.foldl_cons, List.foldl_cons, ih (sendStep ws now acc u), sendStep_fst]

/-- Folding the send upserts over users other than `v` leaves `v`'s row
lookup unchanged. -/
theorem foldInc_not_mem (ws now : Nat) :
    ∀ (L : List Nat) (ns : List ChatNotification) (v : Nat), v ∉ L →
      (L.foldl (fun a u => upsertIncNotifs a u ws now) ns).find? (notifKey v ws) =
        ns.find? (notifKey v ws) := by
  intro L
  induction L with
  | nil => intro ns v _; rfl
  | cons u rest ih =>
    intro ns v hv
    rw [List.foldl_cons, ih _ v (fun h => hv (List.mem_cons_of_mem u h)),
      find?_upsertInc_ne ws now u v (fun h => hv (h ▸ List.mem_cons_self u rest))]

/-- Folding the send upserts over a recipient list containing `v` exactly once
increments `v`'s existing row exactly once. -/
theorem foldInc_count_one (ws now : Nat) :
    ∀ (L : List Nat) (ns : List ChatNotification) (v : Nat) (n : ChatNotification),
      L.count v = 1 → ns.find? (notifKey v ws) = some n →
      (L.foldl (fun a u => upsertIncNotifs a u ws now) ns).find? (notifKey v ws) =
        some { n with unreadCount := n.unreadCount + 1 } := by
  intro L
  induction L with
  | nil => intro ns v n hc; simp [List.count] at hc
  | cons u rest ih =>
    intro ns v n hc hn
    by_cases hu : u = v
    · subst hu
      rw [List.count_cons_self] at hc
      have hrest : u ∉ rest := List.count_eq_zero.mp (by omega)
      rw [List.foldl_cons, foldInc_not_mem ws now rest _ u hrest,
        find?_upsertInc_self ws now u ns n hn]
    · rw [List.count_cons] at hc
      simp only [beq_iff_eq, hu, if_false] at hc
      rw [List.foldl_cons]
      exact ih _ v n (by omega)
        (by rw [find?_upsertInc_ne ws now u v (Ne.symm hu) ns]; exact hn)

/-- The recalculation update for user `u` leaves other users' row lookups
unchanged. -/
theorem find?_recalcUpdate_ne (ws c u v : Nat) (hvu : v ≠ u) :
    ∀ ns : List ChatNotification,
      (recalcUpdate ns u ws c).find? (notifKey v ws) = ns.find? (notifKey v ws) := by
  intro ns
  induction ns with
  | nil => rfl
  | cons x xs ih =>
    unfold recalcUpdate
    by_cases hx : notifKey u ws x = true
    · rw [if_pos hx]
      have hxu : x.userId = u := by
        have := hx
        unfold notifKey at this
        simp only [Bool.and_eq_true, beq_iff_eq] at this
        exact this.1
      rw [List.find?_cons_of_neg _ (by simp [notifKey, hxu, Ne.symm hvu]),
        List.find?_cons_of_neg _ (by simp [notifKey, hxu, Ne.symm hvu])]
    · rw [if_neg hx]
      by_cases hxv : notifKey v ws x = true
      · rw [List.find?_cons_of_pos _ hxv, List.find?_cons_of_pos _ hxv]
      · rw [List.find?_cons_of_neg _ hxv, List.find?_cons_of_neg _ hxv]
        exact ih

/-- The recalculation update stores exactly `c` into `u`'s existing row. -/
theorem find?_recalcUpdate_self (ws c u : Nat) :
    ∀ (ns : List ChatNotification) (n : ChatNotification),
      ns.find? (notifKey u ws) = some n →
      (recalcUpdate ns u ws c).find? (notifKey u ws) = some { n with unreadCount := c } := by
  intro ns
  induction ns with
  | nil => intro n h; simp [List.find?] at h
  | cons x xs ih =>
    intro n h
    by_cases hx : notifKey u ws x = true
    · rw [List.find?_cons_of_pos _ hx] at h
      cases h
      unfold recalcUpdate
      rw [if_pos hx]
      exact List.find?_cons_of_pos _ hx
    · rw [List.find?_cons_of_neg _ hx] at h
      unfold recalcUpdate
      rw [if_neg hx, List.find?_cons_of_neg _ hx]
      exact ih n h

/-- The counter component of one delete-recalculation iteration. -/
theorem recalcStep_fst (msgs : List ChatMessage) (ws : Nat)
    (acc : List ChatNotification × List CounterWrite) (u : Nat) :
    (recalcStep msgs ws acc u).1 = recalcApply msgs ws acc.1 u := by
  unfold recalcStep recalcApply
  cases h : acc.1.find? (notifKey u ws) with
  | none => rfl
  | some n => rfl

/-- The counter table after the delete loop is the fold of `recalcApply`. -/
theorem recalcFold_fst (msgs : List ChatMessage) (ws : Nat) :
    ∀ (L : List Nat) (acc : List ChatNotification × List CounterWrite),
      (L.foldl (recalcStep msgs ws) acc).1 =
        L.foldl (recalcApply msgs ws) acc.1 := by
  intro L
  induction L with
  | nil => intro acc; rfl
  | cons u rest ih =>
    intro acc
    rw [List.foldl_cons, List.foldl_cons, ih (recalcStep msgs ws acc u), recalcStep_fst]

/-- One recalculation for user `u` leaves other users' row lookups unchanged. -/
theorem recalcApply_find_ne (msgs : List ChatMessage) (ws u v : Nat) (hvu : v ≠ u) :
    ∀ ns : List ChatNotification,
      (recalcApply msgs ws ns u).find? (notifKey v ws) = ns.find? (notifKey v ws) := by
  intro ns
  unfold recalcApply
  cases h : ns.find? (notifKey u ws) with
  | none => rfl
  | some n => exact find?_recalcUpdate_ne ws _ u v hvu ns

/-- One recalculation for user `u` stores the recount into `u`'s existing
row, keyed by that row's own `lastReadAt`. -/
theorem recalcApply_find_self (msgs : List ChatMessage) (ws u : Nat) :
    ∀ (ns : List ChatNotification) (n : ChatNotification),
      ns.find? (notifKey u ws) = some n →
      (recalcApply msgs ws ns u).find? (notifKey u ws) =
        some { n with unreadCount := countMessagesAfter msgs ws n.lastReadAt } := by
  intro ns n h
  unfold recalcApply
  rw [h]
  exact find?_recalcUpdate_self ws _ u ns n h

/-- Folding the recalculations over users other than `v` leaves `v`'s row
lookup unchanged. -/
theorem foldRecalc_not_mem (msgs : List ChatMessage) (ws : Nat) :
    ∀ (L : List Nat) (ns : List ChatNotification) (v : Nat), v ∉ L →
      (L.foldl (recalcApply msgs ws) ns).find? (notifKey v ws) =
        ns.find? (notifKey v ws) := by
  intro L
  induction L with
  | nil => intro ns v _; rfl
  | cons u rest ih =>
    intro ns v hv
    rw [List.foldl_cons, ih _ v (fun h => hv (List.mem_cons_of_mem u h)),
      recalcApply_find_ne msgs ws u v (fun h => hv (h ▸ List.mem_cons_self u rest))]

/-- Folding the recalculations over a list containing `v` exactly once stores
the recount (taken at `v`'s own `lastReadAt`) into `v`'s existing row. -/
theorem foldRecalc_count_one (msgs : List ChatMessage) (ws : Nat) :
    ∀ (L : List Nat) (ns : List ChatNotification) (v : Nat) (n : ChatNotification),
      L.count v = 1 → ns.find? (notifKey v ws) = some n →
      (L.foldl (recalcApply msgs ws) ns).find? (notifKey v ws) =
        some { n with unreadCount := countMessagesAfter msgs ws n.lastReadAt } := by
  intro L
  induction L with
  | nil => intro ns v n hc; simp [List.count] at hc
  | cons u rest ih =>
    intro ns v n hc hn
    by_cases hu : u = v
    · subst hu
      rw [List.count_cons_self] at hc
      have hrest : u ∉ rest := List.count_eq_zero.mp (by omega)
      rw [List.foldl_cons, foldRecalc_not_mem msgs ws rest _ u hrest,
        recalcApply_find_self msgs ws u ns n hn]
    · rw [List.count_cons] at hc
      simp only [beq_iff_eq, hu, if_false] at hc
      rw [List.foldl_cons]
      exact ih _ v n (by omega)
        (by rw [recalcApply_find_ne msgs ws u v (Ne.symm hu) ns]; exact hn)

/-- The read-path upsert always leaves the reading user with a row holding
`unreadCount = 0` and `lastReadAt = now`. -/
theorem find?_upsertRead_self (ws now u : Nat) :
    ∀ ns : List ChatNotification,
      ∃ nn, (upsertReadNotifs ns u ws now).find? (notifKey u ws) = some nn ∧
        nn.unreadCount = 0 ∧ nn.lastReadAt = now := by
  intro ns
  induction ns with
  | nil =>
    refine ⟨⟨u, ws, 0, now⟩, ?_, rfl, rfl⟩
    exact List.find?_cons_of_pos _ (by simp [notifKey])
  | cons x xs ih =>
    by_cases hx : notifKey u ws x = true
    · refine ⟨{ x with unreadCount := 0, lastReadAt := now }, ?_, rfl, rfl⟩
      unfold upsertReadNotifs
      rw [if_pos hx]
      exact List.find?_cons_of_pos _ hx
    · obtain ⟨nn, h1, h2, h3⟩ := ih
      refine ⟨nn, ?_, h2, h3⟩
      unfold upsertReadNotifs
      rw [if_neg hx, List.find?_cons_of_neg _ hx]
      exact h1

/-- Appending one message of the workspace newer than `t` raises the count by
one. -/
theorem countMessagesAfter_append_newer (msgs : List ChatMessage) (ws t : Nat)
    (m : ChatMessage) (h1 : m.workspaceId = ws) (h2 : t < m.createdAt) :
    countMessagesAfter (msgs ++ [m]) ws t = countMessagesAfter msgs ws t + 1 := by
  unfold countMessagesAfter
  rw [List.filter_append]
  simp [List.filter_cons, h1, h2]

/-- When no stored message of the workspace postdates `now`, the count from
`now` is zero. -/
theorem countMessagesAfter_zero (msgs : List ChatMessage) (ws now : Nat)
    (h : ∀ m ∈ msgs, m.workspaceId = ws → m.createdAt ≤ now) :
    countMessagesAfter msgs ws now = 0 := by
  unfold countMessagesAfter
  rw [List.length_eq_zero, List.filter_eq_nil_iff]
  intro m hm
  by_cases hws : m.workspaceId = ws
  · have := h m hm hws
    simp [hws]
    omega
  · simp [hws]

/-- Claim C1 counterexample: in a store satisfying the stated invariant
everywhere, sending one message breaks it — the sender's stored counter (and
the pending invitee's) stay at 0 while one workspace message now postdates
their `lastReadAt`. -/
theorem chat_unread_equality_send_counterexample :
    invariantHolds exSend = true ∧
      (sendMessage exSend 2 1 "hi" 100 20).status = 201 ∧
      invariantHolds (sendMessage exSend 2 1 "hi" 100 20).db = false ∧
      findNotif (sendMessage exSend 2 1 "hi" 100 20).db 2 1 = some ⟨2, 1, 0, 10⟩ ∧
      findNotif (sendMessage exSend 2 1 "hi" 100 20).db 3 1 = some ⟨3, 1, 0, 10⟩ ∧
      countMessagesAfter (sendMessage exSend 2 1 "hi" 100 20).db.chatMessages 1 10 = 1 := by
  decide

/-- Claim C1 as amended: per operation, (i) send preserves the equality
`unreadCount = number of workspace messages newer than lastReadAt` for every
recipient — a user occurring once in the recipient list (accepted member or
owner, never the sender) whose counter row predates the new message — but not
for the sender or a pending invitee (see the counterexample); (ii) mark-read
establishes the equality for the reading user when no stored message
postdates the read time; (iii) delete re-establishes the equality for every
user occurring once in the recalculated list (accepted members and the
owner) who holds a counter row. -/
theorem chat_unread_equality_per_operation :
    (∀ (db : DB) (senderId wsId : Nat) (content : String) (msgId now v : Nat)
        (n : ChatNotification),
      (trimString content).data.isEmpty = false →
      (findMember db wsId senderId).isSome = true →
      (findWorkspace db wsId).isSome = true →
      (sendRecipients db wsId senderId).count v = 1 →
      findNotif db v wsId = some n →
      n.lastReadAt < now →
      n.unreadCount = countMessagesAfter db.chatMessages wsId n.lastReadAt →
      findNotif (sendMessage db senderId wsId content msgId now).db v wsId =
          some { n with unreadCount := n.unreadCount + 1 } ∧
        n.unreadCount + 1 =
          countMessagesAfter (sendMessage db senderId wsId content msgId now).db.chatMessages
            wsId n.lastReadAt) ∧
    (∀ (db : DB) (userId wsId now : Nat),
      (markRead db userId wsId now).status = 200 →
      (∀ m ∈ db.chatMessages, m.workspaceId = wsId → m.createdAt ≤ now) →
      ∃ nn, findNotif (markRead db userId wsId now).db userId wsId = some nn ∧
        nn.unreadCount = 0 ∧ nn.lastReadAt = now ∧
        nn.unreadCount =
          countMessagesAfter (markRead db userId wsId now).db.chatMessages wsId
            nn.lastReadAt) ∧
    (∀ (db : DB) (userId msgId : Nat) (msg : ChatMessage) (w : Workspace) (v : Nat)
        (n : ChatNotification),
      db.chatMessages.find? (fun m => m.id == msgId) = some msg →
      findWorkspace db msg.workspaceId = some w →
      (deleteMessage db userId msgId).status = 200 →
      (recalcRecipients db msg.workspaceId w.ownerId).count v = 1 →
      findNotif db v msg.workspaceId = some n →
      ∃ nn, findNotif (deleteMessage db userId msgId).db v msg.workspaceId = some nn ∧
        nn.lastReadAt = n.lastReadAt ∧
        nn.unreadCount =
          countMessagesAfter (deleteMessage db userId msgId).db.chatMessages
            msg.workspaceId nn.lastReadAt) := by
  refine ⟨?_, ?_, ?_⟩
  · intro db senderId wsId content msgId now v n hc hm hw hcnt hn ht hinv
    obtain ⟨m, hm'⟩ := Option.isSome_iff_exists.mp hm
    obtain ⟨w, hw'⟩ := Option.isSome_iff_exists.mp hw
    have hsend : sendMessage db senderId wsId content msgId now =
        sendMessageOk db senderId wsId content msgId now := by
      unfold sendMessage
      rw [if_neg (by simp [hc]), hm']
      simp only [hw']
    rw [hsend]
    constructor
    · show ((sendRecipients db wsId senderId).foldl (sendStep wsId now)
          (db.chatNotifications, ([] : List CounterWrite))).1.find? (notifKey v wsId) =
        some { n with unreadCount := n.unreadCount + 1 }
      rw [sendFold_fst]
      exact foldInc_count_one wsId now _ _ v n hcnt hn
    · show n.unreadCount + 1 =
        countMessagesAfter
          (db.chatMessages ++ [⟨msgId, wsId, senderId, trimString content, now⟩])
          wsId n.lastReadAt
      rw [countMessagesAfter_append_newer db.chatMessages wsId n.lastReadAt _ rfl ht, hinv]
  · intro db userId wsId now hstatus hall
    unfold markRead at hstatus ⊢
    by_cases hg : ((findMember db wsId userId).isNone && !isWorkspaceOwner db wsId userId)
        = true
    · rw [if_pos hg] at hstatus
      simp at hstatus
    · rw [if_neg hg]
      obtain ⟨nn, h1, h2, h3⟩ := find?_upsertRead_self wsId now userId db.chatNotifications
      refine ⟨nn, h1, h2, h3, ?_⟩
      rw [h2, h3]
      exact (countMessagesAfter_zero db.chatMessages wsId now hall).symm
  · intro db userId msgId msg w v n hmsg hw hstatus hcnt hn
    have hguard : ¬ (!(w.ownerId == userId) && !(msg.userId == userId) &&
        !(db.workspaceMembers.any fun m =>
          m.workspaceId == msg.workspaceId && m.userId == userId && m.accepted)) = true := by
      intro hg
      unfold deleteMessage at hstatus
      rw [hmsg] at hstatus
      simp only [hw] at hstatus
      rw [if_pos hg] at hstatus
      simp at hstatus
    have hdel : deleteMessage db userId msgId = deleteMessageOk db msgId msg w := by
      unfold deleteMessage
      rw [hmsg]
      simp only [hw]
      rw [if_neg hguard]
    rw [hdel]
    have hfold : (deleteMessageOk db msgId msg w).db.chatNotifications =
        (recalcRecipients db msg.workspaceId w.ownerId).foldl
          (recalcApply (db.chatMessages.filter fun m => m.id != msgId) msg.workspaceId)
          db.chatNotifications := by
      show ((recalcRecipients db msg.workspaceId w.ownerId).foldl
          (recalcStep (db.chatMessages.filter fun m => m.id != msgId) msg.workspaceId)
          (db.chatNotifications, ([] : List CounterWrite))).1 = _
      rw [recalcFold_fst]
    refine ⟨{ n with unreadCount :=
        (countMessagesAfter (db.chatMessages.filter fun m => m.id != msgId)
          msg.workspaceId n.lastReadAt) }, ?_, rfl, rfl⟩
    show (deleteMessageOk db msgId msg w).db.chatNotifications.find?
        (notifKey v msg.workspaceId) = _
    rw [hfold]
    exact foldRecalc_count_one _ _ _ _ v n hcnt hn

/-- Witness instantiating all three parts of the per-operation theorem at
concrete stores: the owner's counter after a member's message, a member's
counter after mark-read, and both counters after a delete. -/
theorem chat_unread_equality_witness :
    (findNotif (sendMessage exSend 2 1 "hi" 100 20).db 1 1 = some ⟨1, 1, 1, 10⟩ ∧
      (0 : Nat) + 1 =
        countMessagesAfter (sendMessage exSend 2 1 "hi" 100 20).db.chatMessages 1 10) ∧
    (∃ nn, findNotif (markRead exDel 1 1 40).db 1 1 = some nn ∧
      nn.unreadCount = 0 ∧ nn.lastReadAt = 40 ∧
      nn.unreadCount = countMessagesAfter (markRead exDel 1 1 40).db.chatMessages 1
        nn.lastReadAt) ∧
    (∃ nn, findNotif (deleteMessage exDel 2 100).db 2 1 = some nn ∧
      nn.lastReadAt = 10 ∧
      nn.unreadCount = countMessagesAfter (deleteMessage exDel 2 100).db.chatMessages 1
        nn.lastReadAt) :=
  ⟨chat_unread_equality_per_operation.1 exSend 2 1 "hi" 100 20 1 ⟨1, 1, 0, 10⟩
      (by decide) (by decide) (by decide) (by decide) (by decide) (by decide) (by decide),
    chat_unread_equality_per_operation.2.1 exDel 1 1 40 (by decide) (by decide),
    chat_unread_equality_per_operation.2.2 exDel 2 100 ⟨100, 1, 2, "hi", 20⟩ ⟨1, "w", 1⟩ 2
      ⟨2, 1, 5, 10⟩ (by decide) (by decide) (by decide) (by decide) (by decide)⟩

end TeamCollab

